import Mathlib

/-!
# Verification of the ICO container builder and resize arithmetic

Shallow embedding of `src/services/converter.ts` from the image-toolkit
repository.  The byte-level buffer assembled by `generateIco` is modelled
as a `List Nat` of byte values; `DataView.setUint16` / `setUint32`
little-endian writes become explicit base-256 digit lists with the
truncation modulo `2^16` / `2^32` that those JavaScript methods perform.
The browser's PNG encoder and image decoder are abstract parameters, since
they are platform APIs, not code of this repository.
-/

namespace ImageToolkit

/-- A decoded source image, as the `Image` element that `generateIco` and
`resizeImage` draw from: only its pixel dimensions matter to this code. -/
structure Image where
  width : Nat
  height : Nat
deriving Repr, DecidableEq

/-- A canvas draw operation, recording the `drawImage` call made for one
requested size: the fresh canvas dimensions, and the destination rectangle
`(dx, dy, dw, dh)` the source image is stretched into
(`ctx.drawImage(img, dx, dy, dw, dh)` scales the whole source image to that
rectangle). -/
structure Raster where
  img : Image
  canvasW : Nat
  canvasH : Nat
  dx : Nat
  dy : Nat
  dw : Nat
  dh : Nat
deriving Repr, DecidableEq

/-- Lines 133-137 of `converter.ts`: for each requested `size`, a fresh
canvas of width and height `size` is created and the source image is drawn
with destination rectangle `(0, 0, size, size)`. -/
def renderSize (img : Image) (size : Nat) : Raster :=
  { img := img, canvasW := size, canvasH := size
    dx := 0, dy := 0, dw := size, dh := size }

/-- One entry of the `pngBlobs` array built by `generateIco`: the requested
size together with the encoded payload bytes. -/
structure PngEntry where
  size : Nat
  data : List Nat
deriving Repr, DecidableEq

/-- `view.setUint16(_, n, true)`: the two little-endian base-256 digits of
`n mod 2^16`. -/
def u16le (n : Nat) : List Nat :=
  [n % 256, n / 256 % 256]

/-- `view.setUint32(_, n, true)`: the four little-endian base-256 digits of
`n mod 2^32`. -/
def u32le (n : Nat) : List Nat :=
  [n % 256, n / 256 % 256, n / 65536 % 256, n / 16777216 % 256]

/-- `const headerSize = 6` in `generateIco`. -/
def headerSize : Nat := 6

/-- `const dirEntrySize = 16` in `generateIco`. -/
def dirEntrySize : Nat := 16

/-- Lines 178-179: the width and height bytes of a directory entry,
`png.size >= 256 ? 0 : png.size`. -/
def widthByte (size : Nat) : Nat :=
  if size ≥ 256 then 0 else size

/-- Lines 178-185: one 16-byte directory entry for a payload placed at
`dataOffset`: width byte, height byte, color-palette byte 0, reserved
byte 0, planes `u16 = 1`, bits-per-pixel `u16 = 32`, payload length `u32`,
payload offset `u32`, all little-endian. -/
def dirEntry (png : PngEntry) (dataOffset : Nat) : List Nat :=
  [widthByte png.size, widthByte png.size, 0, 0]
    ++ u16le 1 ++ u16le 32 ++ u32le png.data.length ++ u32le dataOffset

/-- The loop of lines 173-190, directory-entry part: entries in request
order, each recording the running `dataOffset`, which advances by the
payload length after each entry. -/
def buildEntries : List PngEntry → Nat → List Nat
  | [], _ => []
  | png :: rest, dataOffset =>
    dirEntry png dataOffset ++ buildEntries rest (dataOffset + png.data.length)

/-- The loop of lines 173-190, payload part: `uint8.set(png.data, dataOffset)`
with `dataOffset` advancing by each payload's length lays the payloads out
contiguously, i.e. concatenated in request order. -/
def payloadBytes : List PngEntry → List Nat
  | [] => []
  | png :: rest => png.data ++ payloadBytes rest

/-- Lines 166-168: the 6-byte ICO header — reserved `u16 = 0`,
type `u16 = 1`, image count `u16`. -/
def icoHeader (numImages : Nat) : List Nat :=
  u16le 0 ++ u16le 1 ++ u16le numImages

/-- Lines 150-190: the complete ICO buffer.  The `ArrayBuffer` of size
`6 + 16*N + Σ payload lengths` is tiled exactly by the header, the `N`
directory entries and the payloads, so it equals their concatenation; the
first payload sits at `dataOffset = headerSize + dirEntrySize * N`. -/
def generateIcoBuffer (pngs : List PngEntry) : List Nat :=
  icoHeader pngs.length
    ++ buildEntries pngs (headerSize + dirEntrySize * pngs.length)
    ++ payloadBytes pngs

/-- The resolved value of `generateIco`:
`new Blob([icoBuffer], { type: 'image/x-icon' })` (line 193). -/
structure IcoBlob where
  bytes : List Nat
  type : String
deriving Repr, DecidableEq

/-- Line 193: wrap the buffer in a blob tagged `image/x-icon`. -/
def generateIcoBlob (pngs : List PngEntry) : IcoBlob :=
  { bytes := generateIcoBuffer pngs, type := "image/x-icon" }

/-- Lines 132-148: the per-size render-and-encode loop.  `encode` stands for
the browser's `canvas.toBlob` encoder, invoked with format string
`"image/png"` on the canvas holding `renderSize img size`; it returns
`none` when `toBlob` yields a null blob (the `Failed to generate PNG`
rejection).  Sizes are processed in order, the first failure aborting. -/
def encodeSizes (encode : String → Raster → Option (List Nat)) (img : Image) :
    List Nat → Option (List PngEntry)
  | [] => some []
  | size :: rest =>
    match encode "image/png" (renderSize img size) with
    | none => none
    | some data =>
      match encodeSizes encode img rest with
      | none => none
      | some pngs => some ({ size := size, data := data } :: pngs)

/-- Lines 122-207: `generateIco` as a whole.  `imgLoad` is `none` when the
image element fires `onerror` (the `Failed to load image` rejection) and
`some img` when it decodes.  On success the promise resolves with the
assembled blob; any failure rejects with a human-readable message. -/
def generateIco (encode : String → Raster → Option (List Nat))
    (imgLoad : Option Image) (sizes : List Nat) : Except String IcoBlob :=
  match imgLoad with
  | none => .error "Failed to load image"
  | some img =>
    match encodeSizes encode img sizes with
    | none => .error "Failed to generate PNG"
    | some pngs => .ok (generateIcoBlob pngs)

/-- Lines 242-246 of the app component (`convertSingleFile`, `ico` branch):
an empty size list is rejected at the caller with a human-readable message
before `generateIco` is ever invoked. -/
def convertSingleFileIco (encode : String → Raster → Option (List Nat))
    (imgLoad : Option Image) (icoSizes : List Nat) : Except String IcoBlob :=
  if icoSizes.length = 0 then .error "请至少选择一个尺寸"
  else generateIco encode imgLoad icoSizes

/-- Lines 72-83 of `converter.ts` (`resizeImage`): the target canvas
dimensions.  With `maintainAspect`, `ratio = w / h` and the branch on
`width / height > ratio` shrinks one axis; dimensions are modelled as exact
rationals. -/
def resizeImage (w h width height : ℚ) (maintainAspect : Bool) : ℚ × ℚ :=
  if maintainAspect then
    if width / height > w / h then (height * (w / h), height)
    else (width, width / (w / h))
  else (width, height)

/-- Reading one byte back out of the buffer (out-of-range reads default
to 0; all reads below are in range). -/
def readU8 (bs : List Nat) (k : Nat) : Nat := bs.getD k 0

/-- `DataView.getUint16(k, true)` on the modelled buffer. -/
def readU16le (bs : List Nat) (k : Nat) : Nat :=
  bs.getD k 0 + 256 * bs.getD (k + 1) 0

/-- `DataView.getUint32(k, true)` on the modelled buffer. -/
def readU32le (bs : List Nat) (k : Nat) : Nat :=
  bs.getD k 0 + 256 * bs.getD (k + 1) 0 + 65536 * bs.getD (k + 2) 0
    + 16777216 * bs.getD (k + 3) 0

/-- Sum of the lengths of the first `i` payloads: the amount by which the
running `dataOffset` has advanced before entry `i` is written. -/
def prefixLen : List PngEntry → Nat → Nat
  | _, 0 => 0
  | [], _ + 1 => 0
  | png :: rest, i + 1 => png.data.length + prefixLen rest i

/-- Start of payload `i` inside the buffer: directly after the directory
for `i = 0`, and each further payload directly after the previous one. -/
def payloadStart (pngs : List PngEntry) (i : Nat) : Nat :=
  headerSize + dirEntrySize * pngs.length + prefixLen pngs i

/-! ## Structural lemmas about the buffer layout -/

theorem length_dirEntry (png : PngEntry) (dataOffset : Nat) :
    (dirEntry png dataOffset).length = 16 := rfl

theorem length_icoHeader (n : Nat) : (icoHeader n).length = 6 := rfl

theorem length_buildEntries (pngs : List PngEntry) (dataOffset : Nat) :
    (buildEntries pngs dataOffset).length = dirEntrySize * pngs.length := by
  induction pngs generalizing dataOffset with
  | nil => simp [buildEntries, dirEntrySize]
  | cons png rest ih =>
    simp only [buildEntries, List.length_append, length_dirEntry, ih, List.length_cons,
      dirEntrySize]
    omega

theorem prefixLen_cons_succ (png : PngEntry) (rest : List PngEntry) (i : Nat) :
    prefixLen (png :: rest) (i + 1) = png.data.length + prefixLen rest i := rfl

theorem length_payloadBytes (pngs : List PngEntry) :
    (payloadBytes pngs).length = prefixLen pngs pngs.length := by
  induction pngs with
  | nil => rfl
  | cons png rest ih =>
    simp only [payloadBytes, List.length_append, ih, List.length_cons, prefixLen_cons_succ]

theorem prefixLen_eq_sum (pngs : List PngEntry) :
    prefixLen pngs pngs.length = (pngs.map fun p => p.data.length).sum := by
  induction pngs with
  | nil => rfl
  | cons png rest ih =>
    simp only [List.length_cons, prefixLen_cons_succ, List.map_cons, List.sum_cons, ih]

theorem length_generateIcoBuffer (pngs : List PngEntry) :
    (generateIcoBuffer pngs).length
      = headerSize + dirEntrySize * pngs.length + prefixLen pngs pngs.length := by
  simp only [generateIcoBuffer, List.length_append, length_icoHeader, length_buildEntries,
    length_payloadBytes, headerSize]

theorem prefixLen_succ (pngs : List PngEntry) (i : Nat) (hi : i < pngs.length) :
    prefixLen pngs (i + 1) = prefixLen pngs i + (pngs.get ⟨i, hi⟩).data.length := by
  induction pngs generalizing i with
  | nil => simp at hi
  | cons png rest ih =>
    cases i with
    | zero => simp [prefixLen]
    | succ i =>
      simp only [prefixLen_cons_succ, List.get_cons_succ]
      rw [ih i (by simpa using Nat.lt_of_succ_lt_succ hi)]
      omega

theorem prefixLen_mono (pngs : List PngEntry) (i j : Nat) (h : i ≤ j) :
    prefixLen pngs i ≤ prefixLen pngs j := by
  induction pngs generalizing i j with
  | nil =>
    cases i <;> cases j <;> simp [prefixLen]
  | cons png rest ih =>
    cases i with
    | zero => cases j <;> simp [prefixLen]
    | succ i =>
      cases j with
      | zero => omega
      | succ j =>
        simp only [prefixLen_cons_succ]
        exact Nat.add_le_add_left (ih i j (Nat.le_of_succ_le_succ h)) _

theorem getD_append_left (l l' : List Nat) (k : Nat) (h : k < l.length) :
    (l ++ l').getD k 0 = l.getD k 0 :=
  List.getD_append l l' 0 k h

theorem getD_append_add (l l' : List Nat) (k : Nat) :
    (l ++ l').getD (l.length + k) 0 = l'.getD k 0 := by
  rw [List.getD_append_right l l' 0 _ (Nat.le_add_right _ _)]
  simp

theorem buildEntries_getD (pngs : List PngEntry) (dataOffset i j : Nat)
    (hi : i < pngs.length) (hj : j < 16) :
    (buildEntries pngs dataOffset).getD (dirEntrySize * i + j) 0
      = (dirEntry (pngs.get ⟨i, hi⟩) (dataOffset + prefixLen pngs i)).getD j 0 := by
  induction pngs generalizing dataOffset i with
  | nil => simp at hi
  | cons png rest ih =>
    cases i with
    | zero =>
      simp only [buildEntries, dirEntrySize, Nat.mul_zero, Nat.zero_add, List.get]
      rw [getD_append_left _ _ _ (by rw [length_dirEntry]; omega)]
      simp [prefixLen]
    | succ i =>
      rw [show dirEntrySize * (i + 1) + j = (dirEntry png dataOffset).length
            + (dirEntrySize * i + j) from by rw [length_dirEntry]; simp [dirEntrySize]; omega]
      simp only [buildEntries]
      rw [getD_append_add]
      rw [ih (dataOffset + png.data.length) i (by simpa using Nat.lt_of_succ_lt_succ hi)]
      simp only [List.get_cons_succ, prefixLen_cons_succ]
      congr 2
      omega

theorem generateIcoBuffer_entry_getD (pngs : List PngEntry) (i j : Nat)
    (hi : i < pngs.length) (hj : j < 16) :
    (generateIcoBuffer pngs).getD (headerSize + dirEntrySize * i + j) 0
      = (dirEntry (pngs.get ⟨i, hi⟩) (payloadStart pngs i)).getD j 0 := by
  unfold generateIcoBuffer
  rw [List.append_assoc]
  rw [show headerSize + dirEntrySize * i + j
        = (icoHeader pngs.length).length + (dirEntrySize * i + j) from by
      rw [length_icoHeader]; simp [headerSize]; omega]
  rw [getD_append_add]
  rw [getD_append_left _ _ _ (by
    rw [length_buildEntries]
    simp only [dirEntrySize] at *
    omega)]
  rw [buildEntries_getD pngs _ i j hi hj]
  rfl

/-! ## Field values of a directory entry -/

theorem dirEntry_getD_width (png : PngEntry) (dataOffset : Nat) :
    (dirEntry png dataOffset).getD 0 0 = widthByte png.size := rfl

theorem dirEntry_getD_height (png : PngEntry) (dataOffset : Nat) :
    (dirEntry png dataOffset).getD 1 0 = widthByte png.size := rfl

theorem dirEntry_getD_palette (png : PngEntry) (dataOffset : Nat) :
    (dirEntry png dataOffset).getD 2 0 = 0 := rfl

theorem dirEntry_getD_reserved (png : PngEntry) (dataOffset : Nat) :
    (dirEntry png dataOffset).getD 3 0 = 0 := rfl

theorem dirEntry_planes (png : PngEntry) (dataOffset : Nat) :
    readU16le (dirEntry png dataOffset) 4 = 1 := rfl

theorem dirEntry_bpp (png : PngEntry) (dataOffset : Nat) :
    readU16le (dirEntry png dataOffset) 6 = 32 := rfl

theorem dirEntry_sizeField (png : PngEntry) (dataOffset : Nat) :
    readU32le (dirEntry png dataOffset) 8 = png.data.length % 4294967296 := by
  have h0 : (dirEntry png dataOffset).getD 8 0 = png.data.length % 256 := rfl
  have h1 : (dirEntry png dataOffset).getD 9 0 = png.data.length / 256 % 256 := rfl
  have h2 : (dirEntry png dataOffset).getD 10 0 = png.data.length / 65536 % 256 := rfl
  have h3 : (dirEntry png dataOffset).getD 11 0 = png.data.length / 16777216 % 256 := rfl
  simp only [readU32le, h0, h1, h2, h3]
  omega

theorem dirEntry_offsetField (png : PngEntry) (dataOffset : Nat) :
    readU32le (dirEntry png dataOffset) 12 = dataOffset % 4294967296 := by
  have h0 : (dirEntry png dataOffset).getD 12 0 = dataOffset % 256 := rfl
  have h1 : (dirEntry png dataOffset).getD 13 0 = dataOffset / 256 % 256 := rfl
  have h2 : (dirEntry png dataOffset).getD 14 0 = dataOffset / 65536 % 256 := rfl
  have h3 : (dirEntry png dataOffset).getD 15 0 = dataOffset / 16777216 % 256 := rfl
  simp only [readU32le, h0, h1, h2, h3]
  omega

/-! ## Field values read back from the whole buffer -/

theorem generateIcoBuffer_entry_readU16 (pngs : List PngEntry) (i j : Nat)
    (hi : i < pngs.length) (hj : j + 1 < 16) :
    readU16le (generateIcoBuffer pngs) (headerSize + dirEntrySize * i + j)
      = readU16le (dirEntry (pngs.get ⟨i, hi⟩) (payloadStart pngs i)) j := by
  unfold readU16le
  rw [show headerSize + dirEntrySize * i + j + 1
        = headerSize + dirEntrySize * i + (j + 1) from by omega]
  rw [generateIcoBuffer_entry_getD pngs i j hi (by omega),
    generateIcoBuffer_entry_getD pngs i (j + 1) hi hj]

theorem generateIcoBuffer_entry_readU32 (pngs : List PngEntry) (i j : Nat)
    (hi : i < pngs.length) (hj : j + 3 < 16) :
    readU32le (generateIcoBuffer pngs) (headerSize + dirEntrySize * i + j)
      = readU32le (dirEntry (pngs.get ⟨i, hi⟩) (payloadStart pngs i)) j := by
  unfold readU32le
  rw [show headerSize + dirEntrySize * i + j + 1
        = headerSize + dirEntrySize * i + (j + 1) from by omega]
  rw [show headerSize + dirEntrySize * i + j + 2
        = headerSize + dirEntrySize * i + (j + 2) from by omega]
  rw [show headerSize + dirEntrySize * i + j + 3
        = headerSize + dirEntrySize * i + (j + 3) from by omega]
  rw [generateIcoBuffer_entry_getD pngs i j hi (by omega),
    generateIcoBuffer_entry_getD pngs i (j + 1) hi (by omega),
    generateIcoBuffer_entry_getD pngs i (j + 2) hi (by omega),
    generateIcoBuffer_entry_getD pngs i (j + 3) hi hj]

theorem generateIcoBuffer_offsetField (pngs : List PngEntry) (i : Nat)
    (hi : i < pngs.length) :
    readU32le (generateIcoBuffer pngs) (headerSize + dirEntrySize * i + 12)
      = payloadStart pngs i % 4294967296 := by
  rw [generateIcoBuffer_entry_readU32 pngs i 12 hi (by omega), dirEntry_offsetField]

theorem generateIcoBuffer_sizeField (pngs : List PngEntry) (i : Nat)
    (hi : i < pngs.length) :
    readU32le (generateIcoBuffer pngs) (headerSize + dirEntrySize * i + 8)
      = (pngs.get ⟨i, hi⟩).data.length % 4294967296 := by
  rw [generateIcoBuffer_entry_readU32 pngs i 8 hi (by omega), dirEntry_sizeField]

theorem generateIcoBuffer_reservedField (pngs : List PngEntry) :
    readU16le (generateIcoBuffer pngs) 0 = 0 := rfl

theorem generateIcoBuffer_typeField (pngs : List PngEntry) :
    readU16le (generateIcoBuffer pngs) 2 = 1 := rfl

theorem generateIcoBuffer_countField (pngs : List PngEntry) :
    readU16le (generateIcoBuffer pngs) 4 = pngs.length % 65536 := by
  have h0 : (generateIcoBuffer pngs).getD 4 0 = pngs.length % 256 := rfl
  have h1 : (generateIcoBuffer pngs).getD 5 0 = pngs.length / 256 % 256 := rfl
  simp only [readU16le, h0, h1]
  omega

/-! ## Payload placement -/

theorem payloadBytes_slice (pngs : List PngEntry) (i : Nat) (hi : i < pngs.length) :
    ((payloadBytes pngs).drop (prefixLen pngs i)).take (pngs.get ⟨i, hi⟩).data.length
      = (pngs.get ⟨i, hi⟩).data := by
  induction pngs generalizing i with
  | nil => simp at hi
  | cons png rest ih =>
    cases i with
    | zero =>
      simp only [payloadBytes, prefixLen, List.drop_zero, List.get]
      exact List.take_left png.data (payloadBytes rest)
    | succ i =>
      simp only [payloadBytes, prefixLen_cons_succ, List.get_cons_succ]
      rw [List.drop_append (prefixLen rest i)]
      exact ih i (by simpa using Nat.lt_of_succ_lt_succ hi)

theorem generateIcoBuffer_payload_slice (pngs : List PngEntry) (i : Nat)
    (hi : i < pngs.length) :
    ((generateIcoBuffer pngs).drop (payloadStart pngs i)).take (pngs.get ⟨i, hi⟩).data.length
      = (pngs.get ⟨i, hi⟩).data := by
  unfold generateIcoBuffer payloadStart
  rw [List.append_assoc]
  rw [show headerSize + dirEntrySize * pngs.length + prefixLen pngs i
        = (icoHeader pngs.length).length + (dirEntrySize * pngs.length + prefixLen pngs i)
      from by rw [length_icoHeader]; simp [headerSize]; omega]
  rw [List.drop_append]
  rw [show dirEntrySize * pngs.length + prefixLen pngs i
        = (buildEntries pngs (headerSize + dirEntrySize * pngs.length)).length
            + prefixLen pngs i
      from by rw [length_buildEntries]]
  rw [List.drop_append]
  exact payloadBytes_slice pngs i hi

/-! ## The render-and-encode loop -/

theorem encodeSizes_length (enc : String → Raster → Option (List Nat)) (img : Image)
    (sizes : List Nat) (pngs : List PngEntry)
    (h : encodeSizes enc img sizes = some pngs) :
    pngs.length = sizes.length := by
  induction sizes generalizing pngs with
  | nil =>
    simp only [encodeSizes, Option.some.injEq] at h
    simp [← h]
  | cons s rest ih =>
    simp only [encodeSizes] at h
    cases henc : enc "image/png" (renderSize img s) with
    | none => rw [henc] at h; exact absurd h (by simp)
    | some data =>
      rw [henc] at h
      cases hrec : encodeSizes enc img rest with
      | none => rw [hrec] at h; exact absurd h (by simp)
      | some ps =>
        rw [hrec] at h
        simp only [Option.some.injEq] at h
        simp [← h, ih ps hrec]

theorem encodeSizes_spec (enc : String → Raster → Option (List Nat)) (img : Image)
    (sizes : List Nat) (pngs : List PngEntry)
    (h : encodeSizes enc img sizes = some pngs) :
    ∀ (i s : Nat), sizes[i]? = some s →
      ∃ data, enc "image/png" (renderSize img s) = some data
        ∧ pngs[i]? = some (PngEntry.mk s data) := by
  induction sizes generalizing pngs with
  | nil => intro i s hs; simp at hs
  | cons s0 rest ih =>
    simp only [encodeSizes] at h
    cases henc : enc "image/png" (renderSize img s0) with
    | none => rw [henc] at h; exact absurd h (by simp)
    | some data =>
      rw [henc] at h
      cases hrec : encodeSizes enc img rest with
      | none => rw [hrec] at h; exact absurd h (by simp)
      | some ps =>
        rw [hrec] at h
        simp only [Option.some.injEq] at h
        intro i s hs
        cases i with
        | zero =>
          simp only [List.getElem?_cons_zero, Option.some.injEq] at hs
          subst hs
          exact ⟨data, henc, by simp [← h]⟩
        | succ i =>
          simp only [List.getElem?_cons_succ] at hs
          obtain ⟨d, hd, hp⟩ := ih ps hrec i s hs
          exact ⟨d, hd, by simp [← h, hp]⟩

theorem encodeSizes_eq_none_iff (enc : String → Raster → Option (List Nat)) (img : Image)
    (sizes : List Nat) :
    encodeSizes enc img sizes = none
      ↔ ∃ s ∈ sizes, enc "image/png" (renderSize img s) = none := by
  induction sizes with
  | nil => simp [encodeSizes]
  | cons s0 rest ih =>
    cases henc : enc "image/png" (renderSize img s0) with
    | none => simp [encodeSizes, henc]
    | some data =>
      cases hrec : encodeSizes enc img rest with
      | none =>
        rw [show encodeSizes enc img (s0 :: rest) = none from by
          simp [encodeSizes, henc, hrec]]
        simp only [List.mem_cons]
        constructor
        · intro _
          obtain ⟨s, hs, hn⟩ := ih.mp hrec
          exact ⟨s, Or.inr hs, hn⟩
        · intro _
          trivial
      | some ps =>
        rw [show encodeSizes enc img (s0 :: rest)
              = some (PngEntry.mk s0 data :: ps) from by
          simp [encodeSizes, henc, hrec]]
        simp only [List.mem_cons]
        constructor
        · intro hcontra; exact absurd hcontra (by simp)
        · rintro ⟨s, hs | hs, hn⟩
          · subst hs; rw [hn] at henc; exact absurd henc (by simp)
          · exact absurd (ih.mpr ⟨s, hs, hn⟩) (by rw [hrec]; simp)

theorem encodeSizes_const (d : List Nat) (img : Image) (s n : Nat) :
    encodeSizes (fun _ _ => some d) img (List.replicate n s)
      = some (List.replicate n { size := s, data := d }) := by
  induction n with
  | zero => rfl
  | succ n ih => simp [List.replicate, encodeSizes, ih]

theorem prefixLen_zero (pngs : List PngEntry) : prefixLen pngs 0 = 0 := by
  cases pngs <;> rfl

theorem generateIco_ok (enc : String → Raster → Option (List Nat))
    (imgLoad : Option Image) (sizes : List Nat) (blob : IcoBlob)
    (h : generateIco enc imgLoad sizes = Except.ok blob) :
    ∃ img pngs, imgLoad = some img ∧ encodeSizes enc img sizes = some pngs
      ∧ blob = generateIcoBlob pngs := by
  cases imgLoad with
  | none => simp [generateIco] at h
  | some img =>
    cases hrec : encodeSizes enc img sizes with
    | none => simp [generateIco, hrec] at h
    | some pngs =>
      simp only [generateIco, hrec, Except.ok.injEq] at h
      exact ⟨img, pngs, rfl, hrec, h.symm⟩

theorem generateIco_of_encodeSizes (enc : String → Raster → Option (List Nat))
    (img : Image) (sizes : List Nat) (pngs : List PngEntry)
    (h : encodeSizes enc img sizes = some pngs) :
    generateIco enc (some img) sizes = Except.ok (generateIcoBlob pngs) := by
  simp only [generateIco, h]

/-! ## Claim theorems -/

/-- C2: for every successful build with `N` requested sizes, the output
buffer's length equals `6 + 16*N +` the sum of all encoded payload byte
lengths, and the blob is tagged `image/x-icon`; for the size list
`[32, 64]` the length is `6 + 32 + |payload32| + |payload64|` and the
count field reads as `2`. -/
theorem generateIco_length_and_mime (enc : String → Raster → Option (List Nat))
    (imgLoad : Option Image) (sizes : List Nat) (blob : IcoBlob)
    (hok : generateIco enc imgLoad sizes = Except.ok blob) :
    blob.type = "image/x-icon"
    ∧ (∃ img pngs, imgLoad = some img ∧ encodeSizes enc img sizes = some pngs
        ∧ blob.bytes.length
            = headerSize + dirEntrySize * sizes.length
                + (pngs.map fun p => p.data.length).sum)
    ∧ (sizes = [32, 64] →
        ∃ img d32 d64, imgLoad = some img
          ∧ enc "image/png" (renderSize img 32) = some d32
          ∧ enc "image/png" (renderSize img 64) = some d64
          ∧ blob.bytes.length = 6 + 32 + d32.length + d64.length
          ∧ readU16le blob.bytes 4 = 2) := by
  obtain ⟨img, pngs, himg, hrec, hblob⟩ := generateIco_ok enc imgLoad sizes blob hok
  subst hblob
  refine ⟨rfl, ⟨img, pngs, himg, hrec, ?_⟩, ?_⟩
  · show (generateIcoBuffer pngs).length = _
    rw [length_generateIcoBuffer, prefixLen_eq_sum,
      encodeSizes_length enc img sizes pngs hrec]
  · rintro rfl
    simp only [encodeSizes] at hrec
    cases h32 : enc "image/png" (renderSize img 32) with
    | none => rw [h32] at hrec; exact absurd hrec (by simp)
    | some d32 =>
      rw [h32] at hrec
      cases h64 : enc "image/png" (renderSize img 64) with
      | none => rw [h64] at hrec; exact absurd hrec (by simp)
      | some d64 =>
        rw [h64] at hrec
        simp only [Option.some.injEq] at hrec
        refine ⟨img, d32, d64, himg, h32, h64, ?_, ?_⟩
        · show (generateIcoBuffer pngs).length = _
          rw [← hrec, length_generateIcoBuffer]
          simp only [prefixLen, List.length_cons, List.length_nil, headerSize, dirEntrySize]
          omega
        · show readU16le (generateIcoBuffer pngs) 4 = 2
          rw [← hrec, generateIcoBuffer_countField]
          rfl

theorem generateIco_length_and_mime_witness :
    generateIco (fun _ _ => some [7]) (some (Image.mk 100 150)) [32, 64]
      = Except.ok (generateIcoBlob [PngEntry.mk 32 [7], PngEntry.mk 64 [7]])
    ∧ (generateIcoBlob [PngEntry.mk 32 [7], PngEntry.mk 64 [7]]).type = "image/x-icon" :=
  ⟨rfl, (generateIco_length_and_mime (fun _ _ => some [7]) (some (Image.mk 100 150))
    [32, 64] (generateIcoBlob [PngEntry.mk 32 [7], PngEntry.mk 64 [7]]) rfl).1⟩

/-- C3 (amended): for every non-empty size list `S` (duplicates included)
and successful build, the build produces exactly one encoded payload and
one 16-byte directory entry per element of `S`, and the header's declared
image count equals `|S| mod 2^16` — which equals `|S|` whenever
`|S| < 65536`, but not for longer lists, since the count is written with a
16-bit store. -/
theorem generateIco_entry_count (enc : String → Raster → Option (List Nat))
    (imgLoad : Option Image) (sizes : List Nat) (blob : IcoBlob)
    (_hne : sizes ≠ []) (hok : generateIco enc imgLoad sizes = Except.ok blob) :
    ∃ img pngs, imgLoad = some img ∧ encodeSizes enc img sizes = some pngs
      ∧ pngs.length = sizes.length
      ∧ blob.bytes = icoHeader sizes.length
          ++ buildEntries pngs (headerSize + dirEntrySize * sizes.length)
          ++ payloadBytes pngs
      ∧ (buildEntries pngs (headerSize + dirEntrySize * sizes.length)).length
          = dirEntrySize * sizes.length
      ∧ readU16le blob.bytes 4 = sizes.length % 65536 := by
  obtain ⟨img, pngs, himg, hrec, hblob⟩ := generateIco_ok enc imgLoad sizes blob hok
  subst hblob
  have hlen : pngs.length = sizes.length := encodeSizes_length enc img sizes pngs hrec
  refine ⟨img, pngs, himg, hrec, hlen, ?_, ?_, ?_⟩
  · show generateIcoBuffer pngs = _
    rw [generateIcoBuffer, hlen]
  · rw [length_buildEntries, hlen]
  · show readU16le (generateIcoBuffer pngs) 4 = _
    rw [generateIcoBuffer_countField, hlen]

theorem generateIco_entry_count_witness :
    ([32, 64] : List Nat) ≠ []
    ∧ readU16le (generateIcoBlob [PngEntry.mk 32 [7], PngEntry.mk 64 [7]]).bytes 4
        = ([32, 64] : List Nat).length % 65536 := by
  refine ⟨by decide, ?_⟩
  obtain ⟨img, pngs, himg, hrec, hlen, hbytes, hentries, hcount⟩ :=
    generateIco_entry_count (fun _ _ => some [7]) (some (Image.mk 100 150)) [32, 64]
      (generateIcoBlob [PngEntry.mk 32 [7], PngEntry.mk 64 [7]]) (by decide) rfl
  exact hcount

theorem generateIco_entry_count_counterexample :
    generateIco (fun _ _ => some []) (some (Image.mk 100 150)) (List.replicate 65536 1)
      = Except.ok (generateIcoBlob (List.replicate 65536 (PngEntry.mk 1 [])))
    ∧ (List.replicate 65536 (1 : Nat)).length = 65536
    ∧ readU16le (generateIcoBlob (List.replicate 65536 (PngEntry.mk 1 []))).bytes 4 = 0
    ∧ (0 : Nat) ≠ 65536 := by
  refine ⟨?_, by rw [List.length_replicate], ?_, by norm_num⟩
  · exact generateIco_of_encodeSizes _ _ _ _
      (encodeSizes_const [] (Image.mk 100 150) 1 65536)
  · show readU16le (generateIcoBuffer _) 4 = 0
    rw [generateIcoBuffer_countField, List.length_replicate]

/-- C9: the header's count field is written with a 16-bit little-endian
store, so it reads back as `N mod 2^16`; whenever `N ≥ 65536` the declared
image count therefore differs from the number of directory entries
actually written into the buffer (which occupy `16 * N` bytes). -/
theorem generateIco_count_mod_65536 (pngs : List PngEntry)
    (h : 65536 ≤ pngs.length) :
    readU16le (generateIcoBuffer pngs) 4 = pngs.length % 65536
    ∧ readU16le (generateIcoBuffer pngs) 4 ≠ pngs.length
    ∧ (buildEntries pngs (headerSize + dirEntrySize * pngs.length)).length
        = dirEntrySize * pngs.length := by
  refine ⟨generateIcoBuffer_countField pngs, ?_, length_buildEntries pngs _⟩
  rw [generateIcoBuffer_countField]
  have hlt := Nat.mod_lt pngs.length (show 0 < 65536 by norm_num)
  omega

theorem generateIco_count_mod_65536_witness :
    65536 ≤ (List.replicate 65536 (PngEntry.mk 1 [])).length
    ∧ readU16le (generateIcoBuffer (List.replicate 65536 (PngEntry.mk 1 []))) 4
        ≠ (List.replicate 65536 (PngEntry.mk 1 [])).length :=
  ⟨by simp only [List.length_replicate, le_refl],
    (generateIco_count_mod_65536 (List.replicate 65536 (PngEntry.mk 1 []))
      (by simp only [List.length_replicate, le_refl])).2.1⟩

/-- C4: for every directory entry, if the requested size is at least 256
then the entry's width byte and height byte are both 0, and if the
requested size is below 256 then both bytes equal the requested size. -/
theorem generateIco_size_bytes (pngs : List PngEntry) (i : Nat)
    (hi : i < pngs.length) :
    ((pngs.get ⟨i, hi⟩).size ≥ 256 →
      readU8 (generateIcoBuffer pngs) (headerSize + dirEntrySize * i) = 0
      ∧ readU8 (generateIcoBuffer pngs) (headerSize + dirEntrySize * i + 1) = 0)
    ∧ ((pngs.get ⟨i, hi⟩).size < 256 →
      readU8 (generateIcoBuffer pngs) (headerSize + dirEntrySize * i)
          = (pngs.get ⟨i, hi⟩).size
      ∧ readU8 (generateIcoBuffer pngs) (headerSize + dirEntrySize * i + 1)
          = (pngs.get ⟨i, hi⟩).size) := by
  have h0 : readU8 (generateIcoBuffer pngs) (headerSize + dirEntrySize * i)
      = widthByte (pngs.get ⟨i, hi⟩).size := by
    show (generateIcoBuffer pngs).getD (headerSize + dirEntrySize * i) 0 = _
    rw [show headerSize + dirEntrySize * i = headerSize + dirEntrySize * i + 0 from rfl]
    rw [generateIcoBuffer_entry_getD pngs i 0 hi (by omega), dirEntry_getD_width]
  have h1 : readU8 (generateIcoBuffer pngs) (headerSize + dirEntrySize * i + 1)
      = widthByte (pngs.get ⟨i, hi⟩).size := by
    show (generateIcoBuffer pngs).getD (headerSize + dirEntrySize * i + 1) 0 = _
    rw [generateIcoBuffer_entry_getD pngs i 1 hi (by omega), dirEntry_getD_height]
  constructor
  · intro hge
    rw [h0, h1]
    unfold widthByte
    rw [if_pos hge]
    exact ⟨rfl, rfl⟩
  · intro hlt
    rw [h0, h1]
    unfold widthByte
    rw [if_neg (by omega)]
    exact ⟨rfl, rfl⟩

theorem generateIco_size_bytes_witness :
    0 < ([PngEntry.mk 300 [1], PngEntry.mk 32 [2]] : List PngEntry).length
    ∧ (([PngEntry.mk 300 [1], PngEntry.mk 32 [2]] : List PngEntry).get
        ⟨0, by decide⟩).size ≥ 256
    ∧ readU8 (generateIcoBuffer [PngEntry.mk 300 [1], PngEntry.mk 32 [2]])
        (headerSize + dirEntrySize * 0) = 0 :=
  ⟨by decide, by decide,
    ((generateIco_size_bytes [PngEntry.mk 300 [1], PngEntry.mk 32 [2]] 0
      (by decide)).1 (by decide)).1⟩

/-- C5 (amended): in every produced buffer the header is
(u16 reserved = 0, u16 type = 1, u16 count = N mod 2^16 — equal to N
whenever N < 65536, the count being a 16-bit store), and every 16-byte
directory entry has color-palette byte 0, reserved byte 0, color-planes
field 1, bits-per-pixel field 32, a 32-bit little-endian payload length
and a 32-bit little-endian payload offset (each stored modulo 2^32). -/
theorem generateIco_header_and_entry_fields (pngs : List PngEntry) :
    readU16le (generateIcoBuffer pngs) 0 = 0
    ∧ readU16le (generateIcoBuffer pngs) 2 = 1
    ∧ readU16le (generateIcoBuffer pngs) 4 = pngs.length % 65536
    ∧ ∀ (i : Nat) (hi : i < pngs.length),
        readU8 (generateIcoBuffer pngs) (headerSize + dirEntrySize * i + 2) = 0
        ∧ readU8 (generateIcoBuffer pngs) (headerSize + dirEntrySize * i + 3) = 0
        ∧ readU16le (generateIcoBuffer pngs) (headerSize + dirEntrySize * i + 4) = 1
        ∧ readU16le (generateIcoBuffer pngs) (headerSize + dirEntrySize * i + 6) = 32
        ∧ readU32le (generateIcoBuffer pngs) (headerSize + dirEntrySize * i + 8)
            = (pngs.get ⟨i, hi⟩).data.length % 4294967296
        ∧ readU32le (generateIcoBuffer pngs) (headerSize + dirEntrySize * i + 12)
            = payloadStart pngs i % 4294967296 := by
  refine ⟨generateIcoBuffer_reservedField pngs, generateIcoBuffer_typeField pngs,
    generateIcoBuffer_countField pngs, fun i hi => ?_⟩
  refine ⟨?_, ?_, ?_, ?_, generateIcoBuffer_sizeField pngs i hi,
    generateIcoBuffer_offsetField pngs i hi⟩
  · show (generateIcoBuffer pngs).getD (headerSize + dirEntrySize * i + 2) 0 = 0
    rw [generateIcoBuffer_entry_getD pngs i 2 hi (by omega), dirEntry_getD_palette]
  · show (generateIcoBuffer pngs).getD (headerSize + dirEntrySize * i + 3) 0 = 0
    rw [generateIcoBuffer_entry_getD pngs i 3 hi (by omega), dirEntry_getD_reserved]
  · rw [generateIcoBuffer_entry_readU16 pngs i 4 hi (by omega), dirEntry_planes]
  · rw [generateIcoBuffer_entry_readU16 pngs i 6 hi (by omega), dirEntry_bpp]

theorem generateIco_header_and_entry_fields_witness :
    0 < ([PngEntry.mk 32 [7]] : List PngEntry).length
    ∧ readU16le (generateIcoBuffer [PngEntry.mk 32 [7]])
        (headerSize + dirEntrySize * 0 + 4) = 1 :=
  ⟨by decide, ((generateIco_header_and_entry_fields [PngEntry.mk 32 [7]]).2.2.2 0
    (by decide)).2.2.1⟩

theorem generateIco_header_fields_counterexample :
    (List.replicate 65537 (PngEntry.mk 1 [])).length = 65537
    ∧ readU16le (generateIcoBuffer (List.replicate 65537 (PngEntry.mk 1 []))) 4 = 1
    ∧ (1 : Nat) ≠ 65537 := by
  refine ⟨by rw [List.length_replicate], ?_, by norm_num⟩
  rw [generateIcoBuffer_countField, List.length_replicate]

/-- C7 (amended): the normal flow rejects an empty size list at the caller
(`convertSingleFile` throws before invoking the builder), but the
container-building routine itself, invoked directly with an empty list,
does silently resolve with a "valid" zero-entry 6-byte container
(reserved 0, type 1, count 0). -/
theorem generateIco_empty_sizes (enc : String → Raster → Option (List Nat))
    (imgLoad : Option Image) :
    convertSingleFileIco enc imgLoad [] = Except.error "请至少选择一个尺寸"
    ∧ (∀ img, imgLoad = some img →
        generateIco enc imgLoad []
            = Except.ok (IcoBlob.mk [0, 0, 1, 0, 0, 0] "image/x-icon")
        ∧ readU16le [0, 0, 1, 0, 0, 0] 4 = 0) := by
  refine ⟨rfl, fun img himg => ?_⟩
  subst himg
  exact ⟨rfl, rfl⟩

theorem generateIco_empty_sizes_witness :
    (some (Image.mk 100 150) : Option Image) = some (Image.mk 100 150)
    ∧ generateIco (fun _ _ => none) (some (Image.mk 100 150)) []
        = Except.ok (IcoBlob.mk [0, 0, 1, 0, 0, 0] "image/x-icon") :=
  ⟨rfl, ((generateIco_empty_sizes (fun _ _ => none) (some (Image.mk 100 150))).2
    (Image.mk 100 150) rfl).1⟩

theorem generateIco_empty_sizes_counterexample :
    generateIco (fun _ _ => none) (some (Image.mk 100 150)) []
      = Except.ok (IcoBlob.mk [0, 0, 1, 0, 0, 0] "image/x-icon")
    ∧ readU16le [0, 0, 1, 0, 0, 0] 2 = 1
    ∧ readU16le [0, 0, 1, 0, 0, 0] 4 = 0 :=
  ⟨rfl, rfl, rfl⟩

/-- C6: the build fails with an error carrying a non-empty human-readable
message exactly when the source image cannot be decoded or some per-size
re-encode step yields no data; and whenever it succeeds, the result is the
complete container assembled from all the encoded payloads — never a
partial one.  (In the `Except` model the build is atomic by construction:
an invocation returns either one error or one complete blob.) -/
theorem generateIco_error_atomicity (enc : String → Raster → Option (List Nat))
    (imgLoad : Option Image) (sizes : List Nat) :
    ((∃ msg, generateIco enc imgLoad sizes = Except.error msg ∧ msg ≠ "")
      ↔ (imgLoad = none
          ∨ ∃ img, imgLoad = some img
              ∧ ∃ s ∈ sizes, enc "image/png" (renderSize img s) = none))
    ∧ (∀ blob, generateIco enc imgLoad sizes = Except.ok blob →
        ∃ img pngs, imgLoad = some img ∧ encodeSizes enc img sizes = some pngs
          ∧ blob = generateIcoBlob pngs) := by
  refine ⟨?_, fun blob hb => generateIco_ok enc imgLoad sizes blob hb⟩
  cases imgLoad with
  | none =>
    simp only [generateIco]
    constructor
    · intro _
      left
      trivial
    · intro _
      exact ⟨"Failed to load image", rfl, by decide⟩
  | some img =>
    cases hrec : encodeSizes enc img sizes with
    | none =>
      simp only [generateIco, hrec]
      constructor
      · intro _
        exact Or.inr ⟨img, rfl, (encodeSizes_eq_none_iff enc img sizes).mp hrec⟩
      · intro _
        exact ⟨"Failed to generate PNG", rfl, by decide⟩
    | some pngs =>
      simp only [generateIco, hrec]
      constructor
      · rintro ⟨msg, hmsg, _⟩
        exact absurd hmsg (by simp)
      · rintro (hcontra | ⟨img2, himg2, s, hs, hn⟩)
        · exact absurd hcontra (by simp)
        · injection himg2 with h2
          subst h2
          exact absurd ((encodeSizes_eq_none_iff enc img sizes).mpr ⟨s, hs, hn⟩)
            (by rw [hrec]; simp)

theorem generateIco_error_atomicity_witness :
    (32 : Nat) ∈ ([32] : List Nat)
    ∧ (∃ msg, generateIco (fun _ _ => none) (some (Image.mk 100 150)) [32]
        = Except.error msg ∧ msg ≠ "") :=
  ⟨by decide,
    ((generateIco_error_atomicity (fun _ _ => none) (some (Image.mk 100 150)) [32]).1).mpr
      (Or.inr ⟨Image.mk 100 150, rfl, 32, by decide, rfl⟩)⟩

/-- C8: every successful render-and-encode pass produces, for requested
size `s` at position `i`, a payload obtained by encoding — with the
`image/png` format string — a fresh `s × s` square canvas onto which the
whole source image was drawn with destination rectangle `(0, 0, s, s)`,
i.e. stretched to fill the square with no aspect-ratio computation, each
size depending only on the source image and its own `s`. -/
theorem generateIco_render_per_size (enc : String → Raster → Option (List Nat))
    (img : Image) (sizes : List Nat) (pngs : List PngEntry)
    (hok : encodeSizes enc img sizes = some pngs) :
    pngs.length = sizes.length
    ∧ ∀ (i s : Nat), sizes[i]? = some s →
        (renderSize img s).canvasW = s
        ∧ (renderSize img s).canvasH = s
        ∧ (renderSize img s).img = img
        ∧ (renderSize img s).dx = 0
        ∧ (renderSize img s).dy = 0
        ∧ (renderSize img s).dw = (renderSize img s).canvasW
        ∧ (renderSize img s).dh = (renderSize img s).canvasH
        ∧ ∃ data, enc "image/png" (renderSize img s) = some data
            ∧ pngs[i]? = some (PngEntry.mk s data) := by
  refine ⟨encodeSizes_length enc img sizes pngs hok, fun i s hs => ?_⟩
  exact ⟨rfl, rfl, rfl, rfl, rfl, rfl, rfl,
    encodeSizes_spec enc img sizes pngs hok i s hs⟩

theorem generateIco_render_per_size_witness :
    encodeSizes (fun _ _ => some [1]) (Image.mk 100 150) [32]
      = some [PngEntry.mk 32 [1]]
    ∧ ([PngEntry.mk 32 [1]] : List PngEntry).length = ([32] : List Nat).length :=
  ⟨rfl, (generateIco_render_per_size (fun _ _ => some [1]) (Image.mk 100 150)
    [32] [PngEntry.mk 32 [1]] rfl).1⟩

/-- C1 (amended): for every build from a non-empty size list whose total
buffer fits a 32-bit offset (length `< 2^32`; the offset and size fields
are 32-bit stores, taken modulo `2^32`), the payloads are laid out
contiguously starting at `6 + 16*N` in directory order, each entry's
offset field equals the start of its own payload, each payload's bytes sit
exactly at that slice, each `offset + size ≤` total length, consecutive
payloads abut (no gaps or overlaps), and the last payload ends exactly at
the end of the buffer. -/
theorem generateIco_payload_layout (pngs : List PngEntry) (_hne : pngs ≠ [])
    (hfit : (generateIcoBuffer pngs).length < 4294967296) :
    payloadStart pngs 0 = headerSize + dirEntrySize * pngs.length
    ∧ payloadStart pngs pngs.length = (generateIcoBuffer pngs).length
    ∧ ∀ (i : Nat) (hi : i < pngs.length),
        ((generateIcoBuffer pngs).drop (payloadStart pngs i)).take
            (pngs.get ⟨i, hi⟩).data.length = (pngs.get ⟨i, hi⟩).data
        ∧ payloadStart pngs (i + 1)
            = payloadStart pngs i + (pngs.get ⟨i, hi⟩).data.length
        ∧ readU32le (generateIcoBuffer pngs) (headerSize + dirEntrySize * i + 12)
            = payloadStart pngs i
        ∧ readU32le (generateIcoBuffer pngs) (headerSize + dirEntrySize * i + 8)
            = (pngs.get ⟨i, hi⟩).data.length
        ∧ payloadStart pngs i + (pngs.get ⟨i, hi⟩).data.length
            ≤ (generateIcoBuffer pngs).length := by
  have htotal := length_generateIcoBuffer pngs
  refine ⟨by simp [payloadStart, prefixLen_zero], by rw [payloadStart, htotal],
    fun i hi => ?_⟩
  have hsucc : payloadStart pngs (i + 1)
      = payloadStart pngs i + (pngs.get ⟨i, hi⟩).data.length := by
    rw [payloadStart, payloadStart, prefixLen_succ pngs i hi]
    omega
  have hbound : payloadStart pngs i + (pngs.get ⟨i, hi⟩).data.length
      ≤ (generateIcoBuffer pngs).length := by
    rw [← hsucc, htotal, payloadStart]
    have := prefixLen_mono pngs (i + 1) pngs.length hi
    omega
  refine ⟨generateIcoBuffer_payload_slice pngs i hi, hsucc, ?_, ?_, hbound⟩
  · rw [generateIcoBuffer_offsetField pngs i hi]
    have hle : payloadStart pngs i ≤ (generateIcoBuffer pngs).length := by
      rw [htotal, payloadStart]
      have := prefixLen_mono pngs i pngs.length (Nat.le_of_lt hi)
      omega
    exact Nat.mod_eq_of_lt (by omega)
  · rw [generateIcoBuffer_sizeField pngs i hi]
    exact Nat.mod_eq_of_lt (by omega)

theorem generateIco_payload_layout_witness :
    ([PngEntry.mk 32 [1, 2, 3], PngEntry.mk 64 [4, 5]] : List PngEntry) ≠ []
    ∧ (generateIcoBuffer [PngEntry.mk 32 [1, 2, 3], PngEntry.mk 64 [4, 5]]).length
        < 4294967296
    ∧ payloadStart [PngEntry.mk 32 [1, 2, 3], PngEntry.mk 64 [4, 5]]
          ([PngEntry.mk 32 [1, 2, 3], PngEntry.mk 64 [4, 5]] : List PngEntry).length
        = (generateIcoBuffer [PngEntry.mk 32 [1, 2, 3], PngEntry.mk 64 [4, 5]]).length :=
  ⟨by decide, by decide,
    (generateIco_payload_layout [PngEntry.mk 32 [1, 2, 3], PngEntry.mk 64 [4, 5]]
      (by decide) (by decide)).2.1⟩

/-- A two-entry payload list whose first payload is 2^32 bytes long: the
second payload actually starts at byte 4294967334, past what a 32-bit
offset field can record. -/
def overflowPngs : List PngEntry :=
  [PngEntry.mk 16 (List.replicate 4294967296 0), PngEntry.mk 16 []]

theorem generateIco_payload_layout_counterexample :
    overflowPngs ≠ []
    ∧ payloadStart overflowPngs 1 = 4294967334
    ∧ readU32le (generateIcoBuffer overflowPngs) (headerSize + dirEntrySize * 1 + 12)
        = 38
    ∧ (38 : Nat) ≠ 4294967334 := by
  have h1 : prefixLen overflowPngs 1 = 4294967296 := by
    have e := prefixLen_cons_succ (PngEntry.mk 16 (List.replicate 4294967296 0))
      [PngEntry.mk 16 []] 0
    rw [Nat.zero_add] at e
    rw [show overflowPngs = PngEntry.mk 16 (List.replicate 4294967296 0)
        :: [PngEntry.mk 16 []] from rfl]
    rw [e, prefixLen_zero]
    rw [show (PngEntry.mk 16 (List.replicate 4294967296 (0 : Nat))).data
        = List.replicate 4294967296 0 from rfl]
    rw [List.length_replicate]
  have hlen2 : overflowPngs.length = 2 := rfl
  have hstart : payloadStart overflowPngs 1 = 4294967334 := by
    rw [payloadStart, h1, hlen2]
    norm_num [headerSize, dirEntrySize]
  refine ⟨List.cons_ne_nil _ _, hstart, ?_, by norm_num⟩
  rw [generateIcoBuffer_offsetField overflowPngs 1 (by rw [hlen2]; omega), hstart]

/-- C10: for a source of dimensions `w × h` and requested `(width, height)`
with all four positive, `resizeImage` with `maintainAspect = true` targets
`(height * (w/h), height)` when `width/height > w/h` and
`(width, width/(w/h))` otherwise; the chosen dimensions preserve the
source aspect ratio and neither exceeds its requested value. -/
theorem resizeImage_aspect (w h width height : ℚ) (hw : 0 < w) (hh : 0 < h)
    (hW : 0 < width) (hH : 0 < height) :
    (width / height > w / h →
        resizeImage w h width height true = (height * (w / h), height))
    ∧ (¬ width / height > w / h →
        resizeImage w h width height true = (width, width / (w / h)))
    ∧ (resizeImage w h width height true).1 / (resizeImage w h width height true).2
        = w / h
    ∧ (resizeImage w h width height true).1 ≤ width
    ∧ (resizeImage w h width height true).2 ≤ height := by
  have hr : 0 < w / h := div_pos hw hh
  simp only [resizeImage, if_true]
  by_cases hc : width / height > w / h
  · rw [if_pos hc]
    refine ⟨fun _ => rfl, fun hn => absurd hc hn, ?_, ?_, le_refl height⟩
    · show height * (w / h) / height = w / h
      rw [mul_comm, mul_div_assoc, div_self (ne_of_gt hH), mul_one]
    · show height * (w / h) ≤ width
      have h2 : w * height < width * h := by
        rw [gt_iff_lt, div_lt_div_iff₀ hh hH] at hc
        exact hc
      rw [mul_div_assoc', div_le_iff₀ hh]
      nlinarith
  · rw [if_neg hc]
    have hle : width / height ≤ w / h := not_lt.mp hc
    refine ⟨fun hcc => absurd hcc hc, fun _ => rfl, ?_, le_refl width, ?_⟩
    · show width / (width / (w / h)) = w / h
      rw [div_div_eq_mul_div, mul_comm, mul_div_assoc, div_self (ne_of_gt hW), mul_one]
    · show width / (w / h) ≤ height
      have h2 : width * h ≤ w * height := by
        rw [div_le_div_iff₀ hH hh] at hle
        exact hle
      rw [div_le_iff₀ hr, mul_div_assoc', le_div_iff₀ hh]
      nlinarith

theorem resizeImage_aspect_witness :
    (0 : ℚ) < 100 ∧ (0 : ℚ) < 150 ∧ (0 : ℚ) < 64
    ∧ (resizeImage 100 150 64 64 true).1 ≤ 64 :=
  ⟨by norm_num, by norm_num, by norm_num,
    (resizeImage_aspect 100 150 64 64 (by norm_num) (by norm_num) (by norm_num)
      (by norm_num)).2.2.2.1⟩

end ImageToolkit
